import Mathlib

/-!
Verification development for the research-compass repository.

The frontend TypeScript (`frontend/src/utils/apiError.ts`,
`frontend/src/pages/DashboardNeo.tsx`, `frontend/src/services/auth.ts`) is
shallowly embedded below as executable Lean functions.  The backend semantic
matching core (EmbeddingProvider / VectorStore / EmbeddingService /
SearchService) is not part of the provided sources, so those components are
modelled from the specification; each such definition carries a doc comment
starting with `Modelled from the spec:`.
-/

/-! ## JavaScript values

A small model of JavaScript runtime values, enough to give the semantics of
`formatApiErrorDetail` (frontend/src/utils/apiError.ts) over arbitrary
`unknown` input: JSON-like data plus `undefined`. -/

inductive JsVal where
  | null
  | undefined
  | bool (b : Bool)
  | num (n : Int)
  | str (s : String)
  | arr (xs : List JsVal)
  | obj (fields : List (String × JsVal))

/-- Property access `v.k` for a non-nullish `v`: on an object, the first field
named `k` (JavaScript object literals keep one binding per key); on every
other value, `undefined`.  Access on `null`/`undefined` throws and is handled
by the callers below. -/
def JsVal.getField : JsVal → String → JsVal
  | .obj fields, k =>
      match fields.find? (fun p => p.1 == k) with
      | some p => p.2
      | none => .undefined
  | _, _ => .undefined

/-- JavaScript truthiness of a value. -/
def JsVal.truthy : JsVal → Bool
  | .null => false
  | .undefined => false
  | .bool b => b
  | .num n => n != 0
  | .str s => s != ""
  | .arr _ => true
  | .obj _ => true

/-- Whether a value is `null` or `undefined` (the values loosely equal to
`null`, and the values on which property access throws). -/
def JsVal.isNullish : JsVal → Bool
  | .null => true
  | .undefined => true
  | _ => false

mutual

/-- JavaScript `String(v)` conversion. -/
def JsVal.jsToString : JsVal → String
  | .null => "null"
  | .undefined => "undefined"
  | .bool b => if b then "true" else "false"
  | .num n => toString n
  | .str s => s
  | .arr xs => String.intercalate "," (JsVal.jsToStringElems xs)
  | .obj _ => "[object Object]"

/-- Elements of an array as rendered by `Array.prototype.toString`:
`null` and `undefined` elements render as the empty string. -/
def JsVal.jsToStringElems : List JsVal → List String
  | [] => []
  | .null :: xs => "" :: JsVal.jsToStringElems xs
  | .undefined :: xs => "" :: JsVal.jsToStringElems xs
  | x :: xs => JsVal.jsToString x :: JsVal.jsToStringElems xs

end

/-! ## frontend/src/utils/apiError.ts -/

/-- The fixed fallback message of `formatApiErrorDetail`. -/
def requestFailedMessage : String := "Request failed. Please try again."

/-- The expression `Array.isArray(loc) ? loc[loc.length - 1] : null` of
`formatApiErrorDetail`: the last element of `loc` when `loc` is an array
(`undefined` when the array is empty, since `loc[-1]` is `undefined`),
`null` otherwise. -/
def locField : JsVal → JsVal
  | .arr xs =>
      match xs.getLast? with
      | some l => l
      | none => .undefined
  | _ => .null

/-- Shallow embedding of `formatApiErrorDetail` (apiError.ts lines 5-20).
The result is `.error ()` when the JavaScript function throws a `TypeError`
(which happens in `first?.msg ?? (first as { msg?: string }).msg` when
`detail` is a non-empty array whose first element is `null`/`undefined`:
the right operand of `??` reads `.msg` on that nullish value), and
`.ok v` when it returns the value `v`. -/
def formatApiErrorDetail (responseData : JsVal) : Except Unit JsVal :=
  if responseData.isNullish then .ok (.str requestFailedMessage)
  else
    match responseData.getField "detail" with
    | .str s => .ok (.str s)
    | .arr (first :: _) =>
        if first.isNullish then .error ()
        else
          let msg := first.getField "msg"
          let loc := first.getField "loc"
          if msg.truthy then
            let field : JsVal := locField loc
            if field.truthy then
              .ok (.str (field.jsToString ++ ": " ++ msg.jsToString))
            else .ok msg
          else .ok (.str requestFailedMessage)
    | _ => .ok (.str requestFailedMessage)

/-- Whitespace trimming on both ends, modelling JavaScript
`String.prototype.trim` (and Python `str.strip`); defined by structural
recursion over the character list so that it evaluates on concrete input. -/
def strTrim (s : String) : String :=
  ⟨((s.data.dropWhile Char.isWhitespace).reverse.dropWhile Char.isWhitespace).reverse⟩

/-! ## frontend/src/pages/DashboardNeo.tsx -/

/-- The dashboard component state touched by `handleSearch`:
`searchResults` (ids of the displayed search results, `none` when the plain
opportunity list is shown), the `error` banner, and the
`isCuratedFromProfile` flag. -/
structure DashboardState where
  searchResults : Option (List Nat)
  error : Option String
  isCuratedFromProfile : Bool
deriving DecidableEq

/-- The validation error message of `handleSearch`. -/
def tooShortMessage : String := "Enter at least 10 characters for semantic search."

/-- Observable outcome of one `handleSearch` invocation: the component state
after the handler's synchronous updates, whether `fetchOpportunities` was
invoked (reloading the plain list), and the semantic-search HTTP request
issued, if any (`some q` = POST /api/opportunities/search with query `q`). -/
structure HandleSearchOutcome where
  state : DashboardState
  refetchedList : Bool
  request : Option String
deriving DecidableEq

/-- Shallow embedding of `handleSearch` (DashboardNeo.tsx lines 131-167) up to
the issuing of the HTTP request.  `const query = searchQuery.trim()`; an empty
`query` resets the results, refetches the plain list and clears the curated
flag; a `query` shorter than 10 characters only sets the error banner; a
longer one clears the error and the curated flag and issues the request. -/
def handleSearch (s : DashboardState) (searchQuery : String) : HandleSearchOutcome :=
  let query := strTrim searchQuery
  if query = "" then
    { state := { s with searchResults := none, isCuratedFromProfile := false }
      refetchedList := true
      request := none }
  else if query.length < 10 then
    { state := { s with error := some tooShortMessage }
      refetchedList := false
      request := none }
  else
    { state := { s with error := none, isCuratedFromProfile := false }
      refetchedList := false
      request := some query }

/-! ## frontend/src/services/auth.ts (response interceptor) -/

/-- A request as seen by the axios response interceptor: whether its headers
carry `X-Retry`, and its `Authorization` bearer token, if any. -/
structure ApiRequest where
  xRetry : Bool
  auth : Option String
deriving DecidableEq

/-- Outcome of the response interceptor's error branch: the request re-issued
through `api(originalRequest)`, if any, and whether the user was redirected
to `/signin` (with tokens cleared). -/
structure InterceptOutcome where
  retried : Option ApiRequest
  redirectedToSignin : Bool
deriving DecidableEq

/-- Shallow embedding of the response interceptor's rejection handler
(auth.ts lines 107-150).  `status` is the HTTP status of the failed response
(`none` when there was no response), `originalRequest` is `error.config`,
`storedRefreshToken` is what `TokenStorage.getRefreshToken()` returns, and
`refresh tok` is the access token obtained from POST /api/auth/refresh
(`none` when that call fails).  Every branch that does not retry rejects the
promise. -/
def onResponseError (status : Option Nat) (originalRequest : Option ApiRequest)
    (storedRefreshToken : Option String) (refresh : String → Option String) :
    InterceptOutcome :=
  match originalRequest with
  | some req =>
      if status = some 401 ∧ req.xRetry = false then
        match storedRefreshToken with
        | some tok =>
            match refresh tok with
            | some newAccess =>
                { retried := some { req with xRetry := true, auth := some newAccess }
                  redirectedToSignin := false }
            | none => { retried := none, redirectedToSignin := true }
        | none => { retried := none, redirectedToSignin := true }
      else { retried := none, redirectedToSignin := false }
  | none => { retried := none, redirectedToSignin := false }

/-! ## Spec-modelled semantic matching core

The backend Python services (`app/services/embeddings.py`,
`app/services/search.py`, `app/api/search.py`) are not among the provided
sources; only their documentation, routes and callers are.  The definitions
in this section are therefore modelled from the specification (spec.md
sections 3, 4.2, 4.3, 4.4 and 6).  Vector components and scores are modelled
as rationals; the square root used by cosine similarity is abstracted as a
parameter `sqrtQ`, and the similarity function used by the store is a
parameter `sim`. -/

/-- Dot product of two vectors, componentwise over the common prefix. -/
def dotProduct : List ℚ → List ℚ → ℚ
  | a :: as, b :: bs => a * b + dotProduct as bs
  | _, _ => 0

/-- Squared Euclidean norm of a vector. -/
def normSq (v : List ℚ) : ℚ := dotProduct v v

/-- Modelled from the spec: cosine similarity (spec.md section 4.2), for the
missing VectorStore implementation.  Defined as `dot(a,b) / (||a|| * ||b||)`,
with the degenerate case of a zero-norm vector yielding exactly `0`, so no
division by zero is ever attempted.  The square root of the backing numeric
library is abstracted as the parameter `sqrtQ`. -/
def cosineSim (sqrtQ : ℚ → ℚ) (a b : List ℚ) : ℚ :=
  if normSq a = 0 ∨ normSq b = 0 then 0
  else dotProduct a b / (sqrtQ (normSq a) * sqrtQ (normSq b))

/-- Modelled from the spec: an EmbeddingRecord (spec.md section 3) of the
missing VectorStore, for one entity kind — entity id, stored vector, model
name and the exact source text the vector was computed from. -/
structure EmbeddingRecord where
  entityId : Nat
  vector : List ℚ
  modelName : String
  sourceText : String
deriving DecidableEq

/-- Modelled from the spec: `VectorStore.upsert` (spec.md section 4.2) of the
missing VectorStore — idempotent, overwrites any prior record for the same
entity id. -/
def upsert (store : List EmbeddingRecord) (id : Nat) (v : List ℚ)
    (modelName sourceText : String) : List EmbeddingRecord :=
  store.filter (fun r => r.entityId != id) ++ [⟨id, v, modelName, sourceText⟩]

/-- Ranking order on scored candidates `(entity_id, similarity)`: descending
similarity, ties broken by ascending entity id (spec.md section 4.2). -/
def rankRel (x y : Nat × ℚ) : Prop :=
  y.2 < x.2 ∨ (x.2 = y.2 ∧ x.1 ≤ y.1)

instance : DecidableRel rankRel := fun x y => by
  unfold rankRel; infer_instance

instance : IsTotal (Nat × ℚ) rankRel where
  total x y := by
    rcases lt_trichotomy x.2 y.2 with h | h | h
    · exact Or.inr (Or.inl h)
    · rcases Nat.le_total x.1 y.1 with h1 | h1
      · exact Or.inl (Or.inr ⟨h, h1⟩)
      · exact Or.inr (Or.inr ⟨h.symm, h1⟩)
    · exact Or.inl (Or.inl h)

instance : IsTrans (Nat × ℚ) rankRel where
  trans x y z hxy hyz := by
    rcases hxy with h1 | ⟨h1, h1i⟩ <;> rcases hyz with h2 | ⟨h2, h2i⟩
    · exact Or.inl (h2.trans h1)
    · exact Or.inl (h2 ▸ h1)
    · exact Or.inl (lt_of_lt_of_eq h2 h1.symm)
    · exact Or.inr ⟨h1.trans h2, h1i.trans h2i⟩

/-- Ordering used by the native index: ascending cosine distance
(`1 - similarity`, the pgvector cosine-distance convention), ties broken by
ascending entity id. -/
def distRel (x y : Nat × ℚ) : Prop :=
  1 - x.2 < 1 - y.2 ∨ (1 - x.2 = 1 - y.2 ∧ x.1 ≤ y.1)

instance : DecidableRel distRel := fun x y => by
  unfold distRel; infer_instance

/-- Modelled from the spec: `VectorStore.topK`, fallback (brute-force) mode
(spec.md section 4.2) of the missing VectorStore — restrict the stored
records to those whose entity satisfies `pred`, compute the similarity of
each candidate vector against the query vector in a single pass, sort by
descending similarity with ties by ascending entity id, truncate to `k`.
Entities without an embedding are simply not in the store, hence excluded. -/
def topKFallback (store : List EmbeddingRecord) (sim : List ℚ → List ℚ → ℚ)
    (query : List ℚ) (k : Nat) (pred : Nat → Bool) : List (Nat × ℚ) :=
  (List.insertionSort rankRel
    ((store.filter (fun r => pred r.entityId)).map
      (fun r => (r.entityId, sim query r.vector)))).take k

/-- Modelled from the spec: `VectorStore.topK`, native mode (spec.md section
4.2) of the missing VectorStore — the backing index orders the same filtered
candidates by ascending cosine distance (ties by ascending entity id) and the
store truncates to `k`; the similarity metric is the same `sim`. -/
def topKNative (store : List EmbeddingRecord) (sim : List ℚ → List ℚ → ℚ)
    (query : List ℚ) (k : Nat) (pred : Nat → Bool) : List (Nat × ℚ) :=
  (List.insertionSort distRel
    ((store.filter (fun r => pred r.entityId)).map
      (fun r => (r.entityId, sim query r.vector)))).take k

/-- Modelled from the spec: the single `topK` contract (spec.md section 4.2)
dispatching on store capability: native mode when the backing index supports
distance operators, fallback mode otherwise. -/
def topK (native : Bool) (store : List EmbeddingRecord)
    (sim : List ℚ → List ℚ → ℚ) (query : List ℚ) (k : Nat)
    (pred : Nat → Bool) : List (Nat × ℚ) :=
  if native then topKNative store sim query k pred
  else topKFallback store sim query k pred

/-! ## Spec-modelled SearchService -/

/-- Modelled from the spec: the optional structured search filters
(spec.md sections 3 and 6) of the missing SearchService — allowed US states,
degree-level set, remote-only flag, paid type, min/max weekly-hours range.
Absence of a field means no constraint. -/
structure SearchFilters where
  states : Option (List String)
  degreeLevels : Option (List String)
  isRemote : Option Bool
  paidType : Option String
  minHours : Option ℚ
  maxHours : Option ℚ
deriving DecidableEq

/-- Relational fields of an opportunity consulted by the structured filters
(mirroring the search result item fields of the frontend). -/
structure OpportunityRow where
  opportunityId : Nat
  locationState : Option String
  degreeLevels : List String
  isRemote : Bool
  paidType : Option String
  minHours : Option ℚ
  maxHours : Option ℚ
deriving DecidableEq

/-- Modelled from the spec: the structured predicate built from the filters
(spec.md section 4.4) by the missing SearchService — each populated field
narrows the candidate set via logical AND; multi-valued fields (states,
degree levels) match via set membership; the hours bounds are checked
against the opportunity's hours range. -/
def matchesFilters (f : SearchFilters) (o : OpportunityRow) : Bool :=
  (match f.states with
   | none => true
   | some ss =>
       match o.locationState with
       | some st => ss.contains st
       | none => false) &&
  (match f.degreeLevels with
   | none => true
   | some ds => o.degreeLevels.any (fun d => ds.contains d)) &&
  (match f.isRemote with
   | none => true
   | some b => o.isRemote == b) &&
  (match f.paidType with
   | none => true
   | some p => o.paidType == some p) &&
  (match f.minHours with
   | none => true
   | some m =>
       match o.maxHours with
       | some x => decide (m ≤ x)
       | none => true) &&
  (match f.maxHours with
   | none => true
   | some m =>
       match o.minHours with
       | some x => decide (x ≤ m)
       | none => true)

/-- Modelled from the spec: lift the optional filters to a predicate over
entity ids (spec.md section 4.4); `none` filters constrain nothing, and an
entity id without a relational row cannot satisfy populated filters. -/
def predOfFilters (opportunities : List OpportunityRow)
    (filters : Option SearchFilters) (id : Nat) : Bool :=
  match filters with
  | none => true
  | some f =>
      match opportunities.find? (fun o => o.opportunityId == id) with
      | some o => matchesFilters f o
      | none => false

/-- Modelled from the spec: the failure taxonomy of the missing SearchService
relevant to the search entry (spec.md section 4.4). -/
inductive SearchError where
  | queryTooShort
  | providerUnavailable
deriving DecidableEq

/-- Modelled from the spec: `SearchService.search` (spec.md section 4.4) of
the missing SearchService — validate that the trimmed query has at least 10
characters (otherwise `QueryTooShort`), obtain the query vector from the
embedding provider (`embed`, `none` meaning `ProviderUnavailable`), build the
structured predicate from the filters, and invoke `topK` on the opportunity
store with the requested limit.  Results are `(entity_id, similarity)` pairs
in rank order; zero candidates yield an empty result, not an error. -/
def search (embed : String → Option (List ℚ)) (sim : List ℚ → List ℚ → ℚ)
    (store : List EmbeddingRecord) (opportunities : List OpportunityRow)
    (native : Bool) (queryText : String) (filters : Option SearchFilters)
    (limit : Nat) : Except SearchError (List (Nat × ℚ)) :=
  if (strTrim queryText).length < 10 then .error .queryTooShort
  else
    match embed (strTrim queryText) with
    | none => .error .providerUnavailable
    | some qv => .ok (topK native store sim qv limit (predOfFilters opportunities filters))

/-- Number of results of a search outcome (zero for a failed search). -/
def resultCount : Except SearchError (List (Nat × ℚ)) → Nat
  | .ok l => l.length
  | .error _ => 0

/-! ## Spec-modelled EmbeddingService -/

/-- Modelled from the spec: per-entity outcome of the missing
EmbeddingService — success / skip (no-op) / error (spec.md section 4.3). -/
inductive EnsureStatus where
  | generated
  | noop
  | failed
deriving DecidableEq

/-- Outcome of one ensure-embedding call: its status, the number of
embedding-provider calls it performed, and the store it leaves behind. -/
structure EnsureResult where
  status : EnsureStatus
  providerCalls : Nat
  store : List EmbeddingRecord
deriving DecidableEq

/-- Modelled from the spec: `ensureUserEmbedding` / `ensureOpportunityEmbedding`
(spec.md section 4.3) of the missing EmbeddingService — read the entity's
current text field, skip work (a no-op, no provider call, store untouched)
when that text is empty after trimming or unchanged since the last stored
`source_text`; otherwise call the provider on the trimmed text and upsert the
resulting vector (a provider failure is recorded, the store untouched). -/
def ensureEmbedding (embed : String → Option (List ℚ)) (modelName : String)
    (store : List EmbeddingRecord) (id : Nat) (text : String) : EnsureResult :=
  let t := strTrim text
  if t = "" then ⟨.noop, 0, store⟩
  else
    match store.find? (fun r => r.entityId == id) with
    | some r =>
        if r.sourceText = t then ⟨.noop, 0, store⟩
        else
          match embed t with
          | none => ⟨.failed, 1, store⟩
          | some v => ⟨.generated, 1, upsert store id v modelName t⟩
    | none =>
        match embed t with
        | none => ⟨.failed, 1, store⟩
        | some v => ⟨.generated, 1, upsert store id v modelName t⟩

/-- Aggregate counts reported by a batch embedding run. -/
structure BatchReport where
  processed : Nat
  skipped : Nat
  failed : Nat
deriving DecidableEq

/-- Modelled from the spec: `generateAll` (spec.md section 4.3) of the missing
EmbeddingService — iterate over all entities of a kind (given as id/text
pairs), apply the single-entity operation to each, track every outcome
(success / skip / error) and report the aggregate counts; a per-entity
provider failure is recorded and the batch continues with the remaining
entities.  The function is total: no outcome aborts the run. -/
def generateAll (embed : String → Option (List ℚ)) (modelName : String)
    (store : List EmbeddingRecord) :
    List (Nat × String) → BatchReport × List EmbeddingRecord
  | [] => (⟨0, 0, 0⟩, store)
  | (id, text) :: rest =>
      let r := ensureEmbedding embed modelName store id text
      let (rep, st) := generateAll embed modelName r.store rest
      match r.status with
      | .generated => ({ rep with processed := rep.processed + 1 }, st)
      | .noop => ({ rep with skipped := rep.skipped + 1 }, st)
      | .failed => ({ rep with failed := rep.failed + 1 }, st)

/-! ## Helper lemmas -/

theorem orderedInsert_congr {α : Type} (r1 r2 : α → α → Prop) [DecidableRel r1]
    [DecidableRel r2] (h : ∀ x y, r1 x y ↔ r2 x y) (a : α) :
    ∀ l : List α, l.orderedInsert r1 a = l.orderedInsert r2 a := by
  intro l
  induction l with
  | nil => rfl
  | cons b l ih =>
      by_cases hc : r1 a b
      · rw [List.orderedInsert, List.orderedInsert, if_pos hc, if_pos ((h a b).mp hc)]
      · rw [List.orderedInsert, List.orderedInsert, if_neg hc,
          if_neg (fun hc2 => hc ((h a b).mpr hc2)), ih]

theorem insertionSort_congr {α : Type} (r1 r2 : α → α → Prop) [DecidableRel r1]
    [DecidableRel r2] (h : ∀ x y, r1 x y ↔ r2 x y) :
    ∀ l : List α, List.insertionSort r1 l = List.insertionSort r2 l := by
  intro l
  induction l with
  | nil => rfl
  | cons b l ih =>
      rw [List.insertionSort, List.insertionSort, ih, orderedInsert_congr r1 r2 h]

theorem distRel_iff_rankRel (x y : Nat × ℚ) : distRel x y ↔ rankRel x y := by
  unfold distRel rankRel
  constructor
  · rintro (h | ⟨h, hi⟩)
    · exact Or.inl (by linarith)
    · exact Or.inr ⟨by linarith, hi⟩
  · rintro (h | ⟨h, hi⟩)
    · exact Or.inl (by linarith)
    · exact Or.inr ⟨by rw [h], hi⟩

theorem topKNative_eq_topKFallback (store : List EmbeddingRecord)
    (sim : List ℚ → List ℚ → ℚ) (query : List ℚ) (k : Nat) (pred : Nat → Bool) :
    topKNative store sim query k pred = topKFallback store sim query k pred := by
  unfold topKNative topKFallback
  rw [insertionSort_congr distRel rankRel distRel_iff_rankRel]

theorem topKFallback_length (store : List EmbeddingRecord)
    (sim : List ℚ → List ℚ → ℚ) (query : List ℚ) (k : Nat) (pred : Nat → Bool) :
    (topKFallback store sim query k pred).length
      = min k ((store.filter (fun r => pred r.entityId)).length) := by
  unfold topKFallback
  rw [List.length_take, List.length_insertionSort, List.length_map]

theorem topK_length (native : Bool) (store : List EmbeddingRecord)
    (sim : List ℚ → List ℚ → ℚ) (query : List ℚ) (k : Nat) (pred : Nat → Bool) :
    (topK native store sim query k pred).length
      = min k ((store.filter (fun r => pred r.entityId)).length) := by
  unfold topK
  cases native <;>
    simp only [if_true, if_false, Bool.false_eq_true, topKNative_eq_topKFallback,
      topKFallback_length]

theorem topKFallback_mem (store : List EmbeddingRecord)
    (sim : List ℚ → List ℚ → ℚ) (query : List ℚ) (k : Nat) (pred : Nat → Bool)
    (x : Nat × ℚ) (hx : x ∈ topKFallback store sim query k pred) :
    ∃ r ∈ store, pred r.entityId = true ∧ x = (r.entityId, sim query r.vector) := by
  unfold topKFallback at hx
  have hx2 := List.take_subset _ _ hx
  rw [List.mem_insertionSort] at hx2
  obtain ⟨r, hr, hxr⟩ := List.mem_map.mp hx2
  obtain ⟨hrs, hrp⟩ := List.mem_filter.mp hr
  exact ⟨r, hrs, hrp, hxr.symm⟩

theorem topKFallback_sorted (store : List EmbeddingRecord)
    (sim : List ℚ → List ℚ → ℚ) (query : List ℚ) (k : Nat) (pred : Nat → Bool) :
    List.Pairwise rankRel (topKFallback store sim query k pred) := by
  unfold topKFallback
  exact List.Pairwise.sublist (List.take_sublist _ _) (List.sorted_insertionSort rankRel _)

theorem normSq_nonneg (v : List ℚ) : 0 ≤ normSq v := by
  unfold normSq
  induction v with
  | nil => simp [dotProduct]
  | cons a as ih =>
      rw [dotProduct]
      have := mul_self_nonneg a
      linarith

/-! ## Claims -/

/-- C2: for every query vector and every candidate set, native-mode retrieval
and brute-force fallback retrieval of `VectorStore.topK` return the same
top-k entity ids in the same order with the same similarity scores (exact
equality, hence within any tolerance); the two implementations are
observationally equivalent behind the single `topK` contract. -/
theorem claim_C2_native_fallback_equivalent (store : List EmbeddingRecord)
    (sim : List ℚ → List ℚ → ℚ) (query : List ℚ) (k : Nat) (pred : Nat → Bool) :
    topKNative store sim query k pred = topKFallback store sim query k pred :=
  topKNative_eq_topKFallback store sim query k pred

/-- C3: for every pair of vectors, if either has zero norm then cosine
similarity is exactly `0` (the division is never attempted, so nothing can
divide by zero or produce NaN — the Lean model is a total function over ℚ),
and otherwise it is `dot(a,b) / (||a|| * ||b||)` with a provably nonzero
denominator, for any square-root function positive on positives. -/
theorem claim_C3_cosine_similarity_safe (sqrtQ : ℚ → ℚ)
    (hpos : ∀ q : ℚ, 0 < q → 0 < sqrtQ q) (a b : List ℚ) :
    ((normSq a = 0 ∨ normSq b = 0) → cosineSim sqrtQ a b = 0) ∧
    (normSq a ≠ 0 → normSq b ≠ 0 →
      sqrtQ (normSq a) * sqrtQ (normSq b) ≠ 0 ∧
      cosineSim sqrtQ a b
        = dotProduct a b / (sqrtQ (normSq a) * sqrtQ (normSq b))) := by
  constructor
  · intro h
    unfold cosineSim
    rw [if_pos h]
  · intro ha hb
    have hapos : 0 < sqrtQ (normSq a) := hpos _ (lt_of_le_of_ne (normSq_nonneg a) (Ne.symm ha))
    have hbpos : 0 < sqrtQ (normSq b) := hpos _ (lt_of_le_of_ne (normSq_nonneg b) (Ne.symm hb))
    refine ⟨ne_of_gt (mul_pos hapos hbpos), ?_⟩
    unfold cosineSim
    rw [if_neg (by tauto)]

theorem claim_C3_witness :
    cosineSim id [(0 : ℚ), 0] [(3 : ℚ), 4] = 0 ∧
    id (normSq [(1 : ℚ)]) * id (normSq [(2 : ℚ)]) ≠ 0 ∧
    cosineSim id [(1 : ℚ)] [(2 : ℚ)]
      = dotProduct [(1 : ℚ)] [(2 : ℚ)] / (id (normSq [(1 : ℚ)]) * id (normSq [(2 : ℚ)])) :=
  ⟨(claim_C3_cosine_similarity_safe id (fun _ h => h) [0, 0] [3, 4]).1
      (by norm_num [normSq, dotProduct]),
   ((claim_C3_cosine_similarity_safe id (fun _ h => h) [1] [2]).2
      (by norm_num [normSq, dotProduct]) (by norm_num [normSq, dotProduct])).1,
   ((claim_C3_cosine_similarity_safe id (fun _ h => h) [1] [2]).2
      (by norm_num [normSq, dotProduct]) (by norm_num [normSq, dotProduct])).2⟩

/-- C4: for every entity kind store, query vector, bound `k` and predicate,
`topK` (in either mode) returns at most `k` scored entity ids, drawn only
from stored (embedded) entities satisfying the predicate, ordered by
descending similarity with ties broken by ascending entity id; when fewer
than `k` candidates exist exactly that many are returned (the length is
exactly `min k` (number of candidates) — never padded). -/
theorem claim_C4_topK_contract (native : Bool) (store : List EmbeddingRecord)
    (sim : List ℚ → List ℚ → ℚ) (query : List ℚ) (k : Nat) (pred : Nat → Bool) :
    (topK native store sim query k pred).length
      = min k ((store.filter (fun r => pred r.entityId)).length) ∧
    (∀ x ∈ topK native store sim query k pred,
      ∃ r ∈ store, pred r.entityId = true ∧ x = (r.entityId, sim query r.vector)) ∧
    List.Pairwise rankRel (topK native store sim query k pred) := by
  have heq : topK native store sim query k pred = topKFallback store sim query k pred := by
    unfold topK
    cases native <;> simp [topKNative_eq_topKFallback]
  refine ⟨topK_length native store sim query k pred, ?_, ?_⟩
  · intro x hx
    exact topKFallback_mem store sim query k pred x (heq ▸ hx)
  · exact heq ▸ topKFallback_sorted store sim query k pred

theorem claim_C4_witness :
    (topK false [⟨1, [1], "m", "t"⟩, ⟨2, [2], "m", "t"⟩] dotProduct [1] 1
        (fun _ => true)).length
      = min 1 (([⟨1, [1], "m", "t"⟩, (⟨2, [2], "m", "t"⟩ : EmbeddingRecord)].filter
          (fun _ => true)).length) ∧
    (∃ r ∈ [⟨1, [1], "m", "t"⟩, (⟨2, [2], "m", "t"⟩ : EmbeddingRecord)],
      (fun (_ : Nat) => true) r.entityId = true ∧
      ((2 : Nat), (2 : ℚ)) = (r.entityId, dotProduct [1] r.vector)) :=
  ⟨(claim_C4_topK_contract false [⟨1, [1], "m", "t"⟩, ⟨2, [2], "m", "t"⟩]
      dotProduct [1] 1 (fun _ => true)).1,
   (claim_C4_topK_contract false [⟨1, [1], "m", "t"⟩, ⟨2, [2], "m", "t"⟩]
      dotProduct [1] 1 (fun _ => true)).2.1 (2, 2)
      (by norm_num [topK, topKFallback, rankRel, dotProduct])⟩

/-- C7: for every query, limit and filters value, a filtered search returns
no more results than the same search without filters over the same stores:
structured filters only narrow the result set. -/
theorem claim_C7_filters_narrow (embed : String → Option (List ℚ))
    (sim : List ℚ → List ℚ → ℚ) (store : List EmbeddingRecord)
    (opportunities : List OpportunityRow) (native : Bool) (queryText : String)
    (f : SearchFilters) (limit : Nat) :
    resultCount (search embed sim store opportunities native queryText (some f) limit)
      ≤ resultCount (search embed sim store opportunities native queryText none limit) := by
  unfold search
  by_cases hq : (strTrim queryText).length < 10
  · simp only [if_pos hq]
    exact Nat.le_refl _
  · simp only [if_neg hq]
    cases hemb : embed (strTrim queryText) with
    | none => exact Nat.le_refl _
    | some qv =>
        show (topK native store sim qv limit (predOfFilters opportunities (some f))).length
          ≤ (topK native store sim qv limit (predOfFilters opportunities none)).length
        rw [topK_length, topK_length]
        refine min_le_min (le_refl limit) ?_
        have hall : store.filter (fun r => predOfFilters opportunities none r.entityId)
            = store := by
          simp [predOfFilters]
        rw [hall]
        exact List.length_filter_le _ _

theorem find?_append_singleton {α : Type} (p : α → Bool) (l : List α) (a : α)
    (h : ∀ x ∈ l, p x = false) :
    (l ++ [a]).find? p = if p a then some a else none := by
  induction l with
  | nil =>
      simp only [List.nil_append, List.find?]
      cases hp : p a <;> simp [hp]
  | cons x xs ih =>
      rw [List.cons_append, List.find?]
      rw [h x (List.mem_cons_self x xs)]
      exact ih (fun y hy => h y (List.mem_cons_of_mem x hy))

theorem find?_upsert (store : List EmbeddingRecord) (id : Nat) (v : List ℚ)
    (modelName sourceText : String) :
    (upsert store id v modelName sourceText).find? (fun r => r.entityId == id)
      = some ⟨id, v, modelName, sourceText⟩ := by
  unfold upsert
  rw [find?_append_singleton]
  · simp
  · intro x hx
    obtain ⟨_, hp⟩ := List.mem_filter.mp hx
    simpa using hp

theorem ensureEmbedding_empty (embed : String → Option (List ℚ)) (modelName : String)
    (store : List EmbeddingRecord) (id : Nat) (text : String)
    (he : strTrim text = "") :
    ensureEmbedding embed modelName store id text = ⟨.noop, 0, store⟩ := by
  unfold ensureEmbedding
  rw [if_pos he]

theorem ensureEmbedding_fresh (embed : String → Option (List ℚ)) (modelName : String)
    (store : List EmbeddingRecord) (id : Nat) (text : String) (r : EmbeddingRecord)
    (he : strTrim text ≠ "")
    (hfind : store.find? (fun r => r.entityId == id) = some r)
    (hsrc : r.sourceText = strTrim text) :
    ensureEmbedding embed modelName store id text = ⟨.noop, 0, store⟩ := by
  unfold ensureEmbedding
  rw [if_neg he, hfind]
  dsimp only
  rw [if_pos hsrc]

theorem ensureEmbedding_generated_of_stale (embed : String → Option (List ℚ))
    (modelName : String) (store : List EmbeddingRecord) (id : Nat) (text : String)
    (r : EmbeddingRecord) (v : List ℚ) (he : strTrim text ≠ "")
    (hfind : store.find? (fun r => r.entityId == id) = some r)
    (hsrc : ¬ r.sourceText = strTrim text) (hv : embed (strTrim text) = some v) :
    ensureEmbedding embed modelName store id text
      = ⟨.generated, 1, upsert store id v modelName (strTrim text)⟩ := by
  unfold ensureEmbedding
  rw [if_neg he, hfind]
  dsimp only
  rw [if_neg hsrc, hv]

theorem ensureEmbedding_generated_of_absent (embed : String → Option (List ℚ))
    (modelName : String) (store : List EmbeddingRecord) (id : Nat) (text : String)
    (v : List ℚ) (he : strTrim text ≠ "")
    (hfind : store.find? (fun r => r.entityId == id) = none)
    (hv : embed (strTrim text) = some v) :
    ensureEmbedding embed modelName store id text
      = ⟨.generated, 1, upsert store id v modelName (strTrim text)⟩ := by
  unfold ensureEmbedding
  rw [if_neg he, hfind]
  dsimp only
  rw [hv]

/-- C5: an ensure-embedding call on an entity whose text is empty after
trimming, or unchanged since the last stored `source_text`, is a no-op: no
provider call, no upsert, a no-op status.  Moreover two successive calls with
unchanged source text and a working provider perform at most one provider
call in total (exactly one when the first call did the work): the second
call is always a no-op leaving the store untouched. -/
theorem claim_C5_ensure_noop (embed : String → Option (List ℚ)) (modelName : String)
    (store : List EmbeddingRecord) (id : Nat) (text : String) :
    (strTrim text = "" → ensureEmbedding embed modelName store id text = ⟨.noop, 0, store⟩) ∧
    (∀ r, store.find? (fun r => r.entityId == id) = some r → r.sourceText = strTrim text →
      ensureEmbedding embed modelName store id text = ⟨.noop, 0, store⟩) ∧
    (∀ v, embed (strTrim text) = some v →
      (ensureEmbedding embed modelName store id text).providerCalls ≤ 1 ∧
      ((ensureEmbedding embed modelName store id text).status ≠ .noop →
        (ensureEmbedding embed modelName store id text).providerCalls = 1) ∧
      ensureEmbedding embed modelName
          (ensureEmbedding embed modelName store id text).store id text
        = ⟨.noop, 0, (ensureEmbedding embed modelName store id text).store⟩) := by
  refine ⟨?_, ?_, ?_⟩
  · exact ensureEmbedding_empty embed modelName store id text
  · intro r hfind hsrc
    by_cases he : strTrim text = ""
    · exact ensureEmbedding_empty embed modelName store id text he
    · exact ensureEmbedding_fresh embed modelName store id text r he hfind hsrc
  · intro v hv
    by_cases he : strTrim text = ""
    · rw [ensureEmbedding_empty embed modelName store id text he]
      exact ⟨Nat.zero_le 1, fun h => absurd rfl h,
        ensureEmbedding_empty embed modelName store id text he⟩
    · cases hfind : store.find? (fun r => r.entityId == id) with
      | some r =>
          by_cases hsrc : r.sourceText = strTrim text
          · rw [ensureEmbedding_fresh embed modelName store id text r he hfind hsrc]
            exact ⟨Nat.zero_le 1, fun h => absurd rfl h,
              ensureEmbedding_fresh embed modelName store id text r he hfind hsrc⟩
          · rw [ensureEmbedding_generated_of_stale embed modelName store id text
              r v he hfind hsrc hv]
            refine ⟨Nat.le_refl 1, fun _ => rfl, ?_⟩
            exact ensureEmbedding_fresh embed modelName _ id text
              ⟨id, v, modelName, strTrim text⟩ he
              (find?_upsert store id v modelName (strTrim text)) rfl
      | none =>
          rw [ensureEmbedding_generated_of_absent embed modelName store id text
            v he hfind hv]
          refine ⟨Nat.le_refl 1, fun _ => rfl, ?_⟩
          exact ensureEmbedding_fresh embed modelName _ id text
            ⟨id, v, modelName, strTrim text⟩ he
            (find?_upsert store id v modelName (strTrim text)) rfl

theorem claim_C5_witness :
    ensureEmbedding (fun _ => some [1]) "model"
        (ensureEmbedding (fun _ => some [1]) "model" [] 7 "hello world").store 7 "hello world"
      = ⟨.noop, 0, (ensureEmbedding (fun _ => some [1]) "model" [] 7 "hello world").store⟩ ∧
    (ensureEmbedding (fun _ => some [1]) "model" [] 7 "hello world").providerCalls = 1 :=
  ⟨((claim_C5_ensure_noop (fun _ => some [1]) "model" [] 7 "hello world").2.2
      [1] rfl).2.2,
   ((claim_C5_ensure_noop (fun _ => some [1]) "model" [] 7 "hello world").2.2
      [1] rfl).2.1 (by decide)⟩

theorem generateAll_report (embed : String → Option (List ℚ)) (modelName : String) :
    ∀ (entities : List (Nat × String)) (store : List EmbeddingRecord),
      (entities.map Prod.fst).Nodup →
      (∀ e ∈ entities, strTrim e.2 ≠ "") →
      (∀ e ∈ entities, ∀ r ∈ store, r.entityId ≠ e.1) →
      (generateAll embed modelName store entities).1.skipped = 0 ∧
      (generateAll embed modelName store entities).1.failed
        = (entities.filter (fun e => (embed (strTrim e.2)).isNone)).length ∧
      (generateAll embed modelName store entities).1.processed
        = (entities.filter (fun e => (embed (strTrim e.2)).isSome)).length := by
  intro entities
  induction entities with
  | nil => intro store _ _ _; exact ⟨rfl, rfl, rfl⟩
  | cons e rest ih =>
      intro store hnodup htext hfresh
      obtain ⟨id, text⟩ := e
      have hne : strTrim text ≠ "" := htext (id, text) (List.mem_cons_self _ _)
      have hfind : store.find? (fun r => r.entityId == id) = none := by
        rw [List.find?_eq_none]
        intro r hr
        simpa using hfresh (id, text) (List.mem_cons_self _ _) r hr
      have hnodup2 : (rest.map Prod.fst).Nodup := by
        rw [List.map_cons, List.nodup_cons] at hnodup
        exact hnodup.2
      have hid : id ∉ rest.map Prod.fst := by
        rw [List.map_cons, List.nodup_cons] at hnodup
        exact hnodup.1
      have htext2 : ∀ x ∈ rest, strTrim x.2 ≠ "" :=
        fun x hx => htext x (List.mem_cons_of_mem _ hx)
      cases hv : embed (strTrim text) with
      | none =>
          have hstep : ensureEmbedding embed modelName store id text
              = ⟨.failed, 1, store⟩ := by
            unfold ensureEmbedding
            rw [if_neg hne, hfind]
            dsimp only
            rw [hv]
          have hrec := ih store hnodup2 htext2
            (fun x hx r hr => hfresh x (List.mem_cons_of_mem _ hx) r hr)
          rw [generateAll, hstep]
          simp only [List.filter_cons]
          rw [hv]
          simpa using hrec
      | some v =>
          have hstep : ensureEmbedding embed modelName store id text
              = ⟨.generated, 1, upsert store id v modelName (strTrim text)⟩ :=
            ensureEmbedding_generated_of_absent embed modelName store id text v
              hne hfind hv
          have hfresh2 : ∀ x ∈ rest, ∀ r2 ∈ upsert store id v modelName (strTrim text),
              r2.entityId ≠ x.1 := by
            intro x hx r2 hr2
            rcases List.mem_append.mp hr2 with hmem | hmem
            · exact hfresh x (List.mem_cons_of_mem _ hx) r2 (List.mem_filter.mp hmem).1
            · have : r2 = ⟨id, v, modelName, strTrim text⟩ := List.mem_singleton.mp hmem
              rw [this]
              intro hcontra
              have hidx : id = x.1 := hcontra
              exact hid (by rw [hidx]; exact List.mem_map_of_mem Prod.fst hx)
          have hrec := ih (upsert store id v modelName (strTrim text)) hnodup2
            htext2 hfresh2
          rw [generateAll, hstep]
          simp only [List.filter_cons]
          rw [hv]
          simpa using hrec

/-- C6: over a corpus of N distinct entities, all needing embeddings (no
prior record, non-empty text), where the provider fails for exactly the M
entities whose embedding call returns nothing, `generateAll` attempts every
entity (the counts sum to N: no failure aborts the batch, and the model is a
total function, so nothing is raised), reporting `processed = N - M`,
`failed = M` and no skips. -/
theorem claim_C6_generateAll_counts (embed : String → Option (List ℚ))
    (modelName : String) (entities : List (Nat × String))
    (hnodup : (entities.map Prod.fst).Nodup)
    (htext : ∀ e ∈ entities, strTrim e.2 ≠ "") :
    (generateAll embed modelName [] entities).1.processed
      = entities.length - (entities.filter (fun e => (embed (strTrim e.2)).isNone)).length ∧
    (generateAll embed modelName [] entities).1.failed
      = (entities.filter (fun e => (embed (strTrim e.2)).isNone)).length ∧
    (generateAll embed modelName [] entities).1.skipped = 0 ∧
    (generateAll embed modelName [] entities).1.processed
        + (generateAll embed modelName [] entities).1.failed
      = entities.length := by
  obtain ⟨hskip, hfail, hproc⟩ := generateAll_report embed modelName entities []
    hnodup htext (fun x _ r hr => absurd hr (List.not_mem_nil r))
  have hsum : (entities.filter (fun e => (embed (strTrim e.2)).isSome)).length
      + (entities.filter (fun e => (embed (strTrim e.2)).isNone)).length
      = entities.length := by
    have h := List.length_eq_length_filter_add
      (l := entities) (fun e => (embed (strTrim e.2)).isSome)
    have hnn : (entities.filter (fun e => !(embed (strTrim e.2)).isSome)).length
        = (entities.filter (fun e => (embed (strTrim e.2)).isNone)).length := by
      congr 1
      apply List.filter_congr
      intro x _
      cases embed (strTrim x.2) <;> rfl
    omega
  refine ⟨?_, hfail, hskip, ?_⟩
  · rw [hproc]
    omega
  · rw [hproc, hfail]
    omega

theorem claim_C6_witness :
    (generateAll (fun t => if t = "fail me please" then none else some [1]) "model" []
        [(1, "one long text"), (2, "fail me please"), (3, "three long text")]).1.processed
      = 2 ∧
    (generateAll (fun t => if t = "fail me please" then none else some [1]) "model" []
        [(1, "one long text"), (2, "fail me please"), (3, "three long text")]).1.failed
      = 1 := by
  have h := claim_C6_generateAll_counts
    (fun t => if t = "fail me please" then none else some [1]) "model"
    [(1, "one long text"), (2, "fail me please"), (3, "three long text")]
    (by decide) (by decide)
  refine ⟨?_, ?_⟩
  · rw [h.1]; decide
  · rw [h.2.1]; decide

theorem string_eq_empty_iff_length (s : String) : s = "" ↔ s.length = 0 := by
  constructor
  · intro h
    rw [h]
    rfl
  · intro h
    have hd : s.data = [] := List.length_eq_zero.mp h
    exact congrArg String.mk hd

/-- C1 (counterexample): the claim asserts that every query whose trimmed
length is below 10 makes the handler report an error; the empty query has
trimmed length 0 < 10, yet `handleSearch` reports no error at it — it resets
the results, reloads the plain list and returns (it does refuse to issue the
request). -/
theorem claim_C1_counterexample :
    (strTrim "").length < 10 ∧
    (handleSearch ⟨none, none, false⟩ "").state.error = none ∧
    (handleSearch ⟨none, none, false⟩ "").request = none ∧
    (handleSearch ⟨none, none, false⟩ "").refetchedList = true := by
  decide

/-- C1 (amended): the dashboard search handler validates the trimmed query
length against the 10-character minimum: no semantic-search request is ever
issued for a trimmed length below 10; every NON-empty trimmed query of
length below 10 makes the handler report the too-short error and refuse the
request; every trimmed query of length at least 10 proceeds — the request is
issued with the trimmed query. -/
theorem claim_C1_query_length_validation (s : DashboardState) (q : String) :
    ((strTrim q).length < 10 → (handleSearch s q).request = none) ∧
    (strTrim q ≠ "" → (strTrim q).length < 10 →
      (handleSearch s q).state.error = some tooShortMessage ∧
      (handleSearch s q).request = none) ∧
    (10 ≤ (strTrim q).length → (handleSearch s q).request = some (strTrim q)) := by
  refine ⟨?_, ?_, ?_⟩
  · intro h
    by_cases he : strTrim q = ""
    · simp [handleSearch, he]
    · simp [handleSearch, he, h]
  · intro hne h
    simp [handleSearch, hne, h]
  · intro h
    have hne : strTrim q ≠ "" := by
      intro he
      rw [(string_eq_empty_iff_length (strTrim q)).mp he] at h
      exact absurd h (by decide)
    have hlt : ¬ (strTrim q).length < 10 := by omega
    simp [handleSearch, hne, hlt]

theorem claim_C1_witness :
    (handleSearch ⟨none, none, false⟩ "short").state.error = some tooShortMessage ∧
    (handleSearch ⟨none, none, false⟩ "short").request = none ∧
    (handleSearch ⟨none, none, false⟩ "machine learning for healthcare").request
      = some "machine learning for healthcare" :=
  ⟨((claim_C1_query_length_validation ⟨none, none, false⟩ "short").2.1
      (by decide) (by decide)).1,
   ((claim_C1_query_length_validation ⟨none, none, false⟩ "short").2.1
      (by decide) (by decide)).2,
   by
     have h := (claim_C1_query_length_validation ⟨none, none, false⟩
       "machine learning for healthcare").2.2 (by decide)
     rw [h]
     decide⟩

/-- C9: a query that is empty after trimming is not an error: it resets the
search results to `null`, reloads the plain opportunity list, clears the
curated-from-profile flag and issues no request; and the too-short error
outcome occurs exactly for queries whose trimmed length is between 1 and 9
characters. -/
theorem claim_C9_empty_query_reset (s : DashboardState) (q : String) :
    (strTrim q = "" →
      handleSearch s q =
        ⟨{ s with searchResults := none, isCuratedFromProfile := false }, true, none⟩) ∧
    (handleSearch s q = ⟨{ s with error := some tooShortMessage }, false, none⟩ ↔
      1 ≤ (strTrim q).length ∧ (strTrim q).length < 10) := by
  constructor
  · intro he
    simp [handleSearch, he]
  · constructor
    · intro h
      by_cases he : strTrim q = ""
      · have hh := congrArg HandleSearchOutcome.refetchedList h
        simp [handleSearch, he] at hh
      · by_cases hlen : (strTrim q).length < 10
        · refine ⟨?_, hlen⟩
          have h0 : (strTrim q).length ≠ 0 :=
            fun h0 => he ((string_eq_empty_iff_length (strTrim q)).mpr h0)
          omega
        · have hh := congrArg HandleSearchOutcome.request h
          simp [handleSearch, he, hlen] at hh
    · rintro ⟨h1, h2⟩
      have he : strTrim q ≠ "" := by
        intro he
        rw [(string_eq_empty_iff_length (strTrim q)).mp he] at h1
        exact absurd h1 (by decide)
      simp [handleSearch, he, h2]

theorem claim_C9_witness :
    handleSearch ⟨some [5], some "old error", true⟩ "   "
      = ⟨⟨none, some "old error", false⟩, true, none⟩ ∧
    handleSearch ⟨none, none, false⟩ " short "
      = ⟨⟨none, some tooShortMessage, false⟩, false, none⟩ :=
  ⟨(claim_C9_empty_query_reset ⟨some [5], some "old error", true⟩ "   ").1 (by decide),
   (claim_C9_empty_query_reset ⟨none, none, false⟩ " short ").2.mpr (by decide)⟩

/-- C8: in the response interceptor, any failed request is retried at most
once — the request re-issued after a successful token refresh always carries
the `X-Retry` header, a request already carrying `X-Retry` is never retried
(its 401 is rejected), and hence the retry of a retry never happens: no
unbounded refresh-retry loop is possible for a single request. -/
theorem claim_C8_retry_at_most_once (status status2 : Option Nat) (req r : ApiRequest)
    (tok tok2 : Option String) (refresh refresh2 : String → Option String) :
    ((onResponseError status (some req) tok refresh).retried = some r →
      r.xRetry = true) ∧
    (req.xRetry = true →
      (onResponseError status (some req) tok refresh).retried = none) ∧
    ((onResponseError status (some req) tok refresh).retried = some r →
      (onResponseError status2 (some r) tok2 refresh2).retried = none) := by
  have hkey : ∀ (st : Option Nat) (rq : ApiRequest) (tk : Option String)
      (rf : String → Option String) (x : ApiRequest),
      (onResponseError st (some rq) tk rf).retried = some x → x.xRetry = true := by
    intro st rq tk rf x h
    unfold onResponseError at h
    dsimp only at h
    by_cases hc : st = some 401 ∧ rq.xRetry = false
    · rw [if_pos hc] at h
      cases tk with
      | none => exact absurd h (by simp)
      | some t =>
          dsimp only at h
          cases hrf : rf t with
          | none =>
              rw [hrf] at h
              exact absurd h (by simp)
          | some newAccess =>
              rw [hrf] at h
              dsimp only at h
              have hx : x = { rq with xRetry := true, auth := some newAccess } :=
                Option.some_injective _ h.symm
              rw [hx]
    · rw [if_neg hc] at h
      exact absurd h (by simp)
  have hskip : ∀ (st : Option Nat) (rq : ApiRequest) (tk : Option String)
      (rf : String → Option String), rq.xRetry = true →
      (onResponseError st (some rq) tk rf).retried = none := by
    intro st rq tk rf hx
    unfold onResponseError
    dsimp only
    rw [if_neg (by simp [hx])]
  refine ⟨hkey status req tok refresh r, hskip status req tok refresh, ?_⟩
  intro h
  exact hskip status2 r tok2 refresh2 (hkey status req tok refresh r h)

theorem claim_C8_witness :
    (onResponseError (some 401) (some ⟨false, some "stale"⟩) (some "rt")
        (fun _ => some "fresh")).retried = some ⟨true, some "fresh"⟩ ∧
    (onResponseError (some 401) (some ⟨true, some "fresh"⟩) (some "rt")
        (fun _ => some "fresh")).retried = none :=
  ⟨rfl,
   (claim_C8_retry_at_most_once (some 401) (some 401) ⟨true, some "fresh"⟩
      ⟨true, some "fresh"⟩ (some "rt") (some "rt") (fun _ => some "fresh")
      (fun _ => some "fresh")).2.1 rfl⟩

theorem append_colon_ne_empty (a b : String) : a ++ ": " ++ b ≠ "" := by
  intro h
  have hlen := congrArg String.length h
  rw [String.length_append, String.length_append] at hlen
  have h2 : (": ").length = 2 := rfl
  have h0 : ("" : String).length = 0 := rfl
  omega

/-- C10 (counterexample): the claim asserts `formatApiErrorDetail` never
throws and always returns a non-empty string; but on `{detail: [null]}` the
expression `first?.msg ?? (first as { msg?: string }).msg` reads `.msg` on
`null` and throws a TypeError; on `{detail: ""}` the empty string is returned
verbatim; and on `{detail: [{msg: 5}]}` the raw truthy `msg` value `5` — not
a string — is returned. -/
theorem claim_C10_counterexample :
    formatApiErrorDetail (.obj [("detail", .arr [.null])]) = .error () ∧
    formatApiErrorDetail (.obj [("detail", .str "")]) = .ok (.str "") ∧
    formatApiErrorDetail (.obj [("detail", .arr [.obj [("msg", .num 5)]])])
      = .ok (.num 5) :=
  ⟨rfl, rfl, rfl⟩

/-- C10 (amended): `formatApiErrorDetail` never throws except exactly when
the input is not nullish and its `detail` field is a non-empty array whose
first element is `null`/`undefined`; a string `detail` is returned verbatim
(hence possibly empty); when the first element of a non-empty `detail` array
has a truthy `msg`, the result is the non-empty string `"field: msg"` when
the loc-derived field is truthy, and the raw `msg` value (a string only when
`msg` is one) when it is falsy; in every other case — including `null` and
`undefined` input — the fixed fallback string is returned. -/
theorem claim_C10_format_api_error_detail (v : JsVal) :
    (v.isNullish = true → formatApiErrorDetail v = .ok (.str requestFailedMessage)) ∧
    (∀ s, v.isNullish = false → v.getField "detail" = .str s →
      formatApiErrorDetail v = .ok (.str s)) ∧
    (formatApiErrorDetail v = .error () ↔
      v.isNullish = false ∧ ∃ first rest, v.getField "detail" = .arr (first :: rest) ∧
        first.isNullish = true) ∧
    (∀ first rest, v.isNullish = false →
      v.getField "detail" = .arr (first :: rest) → first.isNullish = false →
      (first.getField "msg").truthy = true →
      ((locField (first.getField "loc")).truthy = true →
        formatApiErrorDetail v
          = .ok (.str ((locField (first.getField "loc")).jsToString ++ ": "
              ++ (first.getField "msg").jsToString)) ∧
        (locField (first.getField "loc")).jsToString ++ ": "
            ++ (first.getField "msg").jsToString ≠ "") ∧
      ((locField (first.getField "loc")).truthy = false →
        formatApiErrorDetail v = .ok (first.getField "msg"))) ∧
    (∀ first rest, v.isNullish = false →
      v.getField "detail" = .arr (first :: rest) → first.isNullish = false →
      (first.getField "msg").truthy = false →
      formatApiErrorDetail v = .ok (.str requestFailedMessage)) ∧
    (v.isNullish = false → (∀ s, v.getField "detail" ≠ .str s) →
      (∀ first rest, v.getField "detail" ≠ .arr (first :: rest)) →
      formatApiErrorDetail v = .ok (.str requestFailedMessage)) := by
  refine ⟨?_, ?_, ?_, ?_, ?_, ?_⟩
  · intro hn
    simp [formatApiErrorDetail, hn]
  · intro s hn hd
    simp [formatApiErrorDetail, hn, hd]
  · constructor
    · intro h
      cases hn : v.isNullish with
      | true => simp [formatApiErrorDetail, hn] at h
      | false =>
          refine ⟨rfl, ?_⟩
          cases hd : v.getField "detail" with
          | null => simp [formatApiErrorDetail, hn, hd] at h
          | undefined => simp [formatApiErrorDetail, hn, hd] at h
          | bool b => simp [formatApiErrorDetail, hn, hd] at h
          | num n => simp [formatApiErrorDetail, hn, hd] at h
          | str s => simp [formatApiErrorDetail, hn, hd] at h
          | obj fs => simp [formatApiErrorDetail, hn, hd] at h
          | arr xs =>
              cases xs with
              | nil => simp [formatApiErrorDetail, hn, hd] at h
              | cons first rest =>
                  cases hf : first.isNullish with
                  | true => exact ⟨first, rest, rfl, hf⟩
                  | false =>
                      exfalso
                      simp only [formatApiErrorDetail, hn, hd, hf] at h
                      split_ifs at h
    · rintro ⟨hn, first, rest, hd, hf⟩
      simp [formatApiErrorDetail, hn, hd, hf]
  · intro first rest hn hd hf hmsg
    constructor
    · intro hfld
      refine ⟨?_, append_colon_ne_empty _ _⟩
      simp [formatApiErrorDetail, hn, hd, hf, hmsg, hfld]
    · intro hfld
      simp [formatApiErrorDetail, hn, hd, hf, hmsg, hfld]
  · intro first rest hn hd hf hmsg
    simp [formatApiErrorDetail, hn, hd, hf, hmsg]
  · intro hn hstr harr
    cases hd : v.getField "detail" with
    | str s => exact absurd hd (hstr s)
    | arr xs =>
        cases xs with
        | nil => simp [formatApiErrorDetail, hn, hd]
        | cons a t => exact absurd hd (harr a t)
    | null => simp [formatApiErrorDetail, hn, hd]
    | undefined => simp [formatApiErrorDetail, hn, hd]
    | bool b => simp [formatApiErrorDetail, hn, hd]
    | num n => simp [formatApiErrorDetail, hn, hd]
    | obj fs => simp [formatApiErrorDetail, hn, hd]

theorem claim_C10_witness :
    formatApiErrorDetail (.obj [("detail", .str "boom")]) = .ok (.str "boom") ∧
    formatApiErrorDetail (.obj [("detail", .arr [.undefined])]) = .error () :=
  ⟨(claim_C10_format_api_error_detail (.obj [("detail", .str "boom")])).2.1
      "boom" rfl rfl,
   (claim_C10_format_api_error_detail (.obj [("detail", .arr [.undefined])])).2.2.1.mpr
      ⟨rfl, .undefined, [], rfl, rfl⟩⟩
